import Mathlib

/-!
Shallow embedding of the semantic-cache and retrieval core of the
`chewie_ai` backend, translated from the Python sources under
`backend/app` (services `query_classifier.py`, `cache_service.py`,
`rag_service.py` and the chunker in `cli/scraper.py`), together with
theorems about its behaviour.

Modelling conventions:
* a Python `str` is a `List Char` (`Str` below); `str.lower()` is a
  character-wise `Char.toLower` (the inputs of interest are ASCII);
* Python `float` arithmetic on the small constants 0.5 / 0.1 / 0.4 is
  modelled exactly over `ℚ` (the bounds proved below also hold for the
  binary-float values, since every addend is non-negative and the final
  value is clamped with `min`);
* timestamps (`datetime.utcnow()`) are seconds since the epoch, as `Int`;
* the external embedding provider is a parameter `encode : Str → Vec`
  (deterministic by construction, as the spec requires), and the vector
  store's cosine-distance metric is a parameter `dist : Vec → Vec → ℚ`;
  the store contract `nearestNeighbors` (order by ascending distance,
  limit k) is implemented over it;
* database tables are lists of rows; Redis is an association list.
-/

/-- Python strings, modelled as character lists. -/
abbrev Str := List Char

/-- Python `str.lower()` (character-wise; ASCII case folding). -/
def pyLower (s : Str) : Str := s.map Char.toLower

/-- Python `str.upper()` (character-wise; ASCII case folding). -/
def pyUpper (s : Str) : Str := s.map Char.toUpper

/-- Python `str.strip()`: remove leading and trailing whitespace. -/
def pyStrip (s : Str) : Str :=
  ((s.dropWhile Char.isWhitespace).reverse.dropWhile Char.isWhitespace).reverse

/-- Python slice `s[a:b]` for `0 ≤ a ≤ b` (out-of-range ends are clamped). -/
def pySlice (s : Str) (a b : Nat) : Str := (s.drop a).take (b - a)

/-- Python truthiness of an optional string (`None` and `""` are falsy). -/
def pyTruthyOptStr : Option Str → Bool
  | none => false
  | some s => !s.isEmpty

/-- Python truthiness of an optional integer (`None` and `0` are falsy). -/
def pyTruthyOptInt : Option Int → Bool
  | none => false
  | some n => decide (n ≠ 0)

/-- Python `sub in s` substring test (scan every start position). -/
def isSubstr (sub : Str) : Str → Bool
  | [] => sub.isEmpty
  | a :: rest => sub.isPrefixOf (a :: rest) || isSubstr sub rest

/-! ## QueryClassifier (`app/services/query_classifier.py`) -/

/-- `QueryClassifier.EARNINGS_KEYWORDS`. -/
def EARNINGS_KEYWORDS : List Str :=
  ["earn".data, "earning".data, "earnings".data, "yield".data, "apr".data, "apy".data,
   "return".data, "returns".data, "profit".data, "income".data, "interest".data,
   "reward".data, "rewards".data, "make money".data, "how much".data, "calculate".data,
   "calculator".data]

/-- `QueryClassifier.RISK_KEYWORDS`. -/
def RISK_KEYWORDS : List Str :=
  ["risk".data, "risks".data, "risky".data, "safe".data, "safety".data, "secure".data,
   "security".data, "danger".data, "dangerous".data, "lose".data, "loss".data,
   "losses".data, "audit".data, "audited".data, "hack".data, "hacked".data,
   "exploit".data, "vulnerability".data, "insurance".data]

/-- `QueryClassifier.TECHNICAL_KEYWORDS`. -/
def TECHNICAL_KEYWORDS : List Str :=
  ["how to".data, "how do i".data, "tutorial".data, "guide".data, "step".data,
   "steps".data, "deposit".data, "withdraw".data, "connect".data, "wallet".data,
   "transaction".data, "metamask".data, "phantom".data, "solana".data,
   "blockchain".data]

/-- `QueryClassifier._determine_type`: ordered keyword-set membership tests
(`keyword in query` is a substring test) on the already lowercased query. -/
def determine_type (query : Str) : String :=
  if EARNINGS_KEYWORDS.any (fun kw => isSubstr kw query) then "earnings"
  else if RISK_KEYWORDS.any (fun kw => isSubstr kw query) then "risk"
  else if TECHNICAL_KEYWORDS.any (fun kw => isSubstr kw query) then "technical"
  else "general"

/-- Match the pool regex `PRE[- ]?SUF` at the head of `s`, returning the
matched text; the optional separator is tried greedily first, as the regex
engine does. -/
def matchPoolAt (pre suf s : Str) : Option Str :=
  if pre.isPrefixOf s then
    let rest := s.drop pre.length
    match rest with
    | c :: rest2 =>
        if (c == '-' || c == ' ') && suf.isPrefixOf rest2 then some (pre ++ c :: suf)
        else if suf.isPrefixOf rest then some (pre ++ suf)
        else none
    | [] => none
  else none

/-- `re.search` for a pool pattern: try each start position left to right. -/
def searchPool (pre suf : Str) : Str → Option Str
  | [] => none
  | a :: rest =>
    match matchPoolAt pre suf (a :: rest) with
    | some m => some m
    | none => searchPool pre suf rest

/-- The pool patterns of `QueryClassifier._extract_pool_id`, in source order:
`allez[- ]?usdc`, `main[- ]?usdc`, `jito[- ]?sol`, `usdt[- ]?main`. -/
def pool_patterns : List (Str × Str) :=
  [("allez".data, "usdc".data), ("main".data, "usdc".data),
   ("jito".data, "sol".data), ("usdt".data, "main".data)]

/-- Normalisation applied to a matched pool name:
`match.group(0).replace(" ", "-").lower()`. -/
def normalizePool (m : Str) : Str :=
  pyLower (m.map (fun c => if c == ' ' then '-' else c))

/-- Helper for `extract_pool_id`: first pattern (in order) with a match wins. -/
def findPool : List (Str × Str) → Str → Option Str
  | [], _ => none
  | (pre, suf) :: ps, q =>
    match searchPool pre suf q with
    | some m => some (normalizePool m)
    | none => findPool ps q

/-- `QueryClassifier._extract_pool_id`. -/
def extract_pool_id (query : Str) : Option Str :=
  findPool pool_patterns query

/-- Numeric value of a digit string (most significant digit first). -/
def digitsVal (ds : Str) : Nat :=
  ds.foldl (fun acc c => 10 * acc + (c.toNat - 48)) 0

/-- Greedy matcher for `(?:,\d{3})*`: consume as many `,ddd` groups as
possible, returning the consumed text and the remainder. (Giving groups
back on backtracking can never help the amount patterns match, because the
text following the number group must begin with whitespace, a letter, or
end-of-pattern — never with `,`, `.` or a digit — so the greedy parse is
equivalent to full regex matching here.) -/
def numGroupsAux : Str → Str × Str
  | ',' :: a :: b :: c :: t =>
    if a.isDigit && b.isDigit && c.isDigit then
      let p := numGroupsAux t
      (',' :: a :: b :: c :: p.1, p.2)
    else ([], ',' :: a :: b :: c :: t)
  | s => ([], s)

/-- Match the amount group `\d+(?:,\d{3})*(?:\.\d+)?` at the head of `s`,
returning the matched number text and the remainder. -/
def parseNumAt (s : Str) : Option (Str × Str) :=
  let ds := s.takeWhile Char.isDigit
  if ds.isEmpty then none
  else
    let rest0 := s.drop ds.length
    let p := numGroupsAux rest0
    let q : Str × Str :=
      match p.2 with
      | '.' :: t =>
        let fs := t.takeWhile Char.isDigit
        if fs.isEmpty then ([], p.2) else ('.' :: fs, t.drop fs.length)
      | r => ([], r)
    some (ds ++ p.1 ++ q.1, q.2)

/-- Exact rational value of `float(num.replace(",", ""))` for a matched
amount group (Python's binary-float rounding is not modelled; no claim
depends on the value). -/
def ratOfNumStr (numStr : Str) : ℚ :=
  let cleaned := numStr.filter (fun c => !(c == ','))
  let ip := cleaned.takeWhile (fun c => !(c == '.'))
  let fp := (cleaned.dropWhile (fun c => !(c == '.'))).drop 1
  (digitsVal ip : ℚ) + (digitsVal fp : ℚ) / ((10 : ℚ) ^ fp.length)

/-- Currency words of amount pattern 1 (`usdc|usdt|usd|dollars?`); only a
prefix match matters for success and the captured group. -/
def CURRENCY_WORDS : List Str :=
  ["usdc".data, "usdt".data, "usd".data, "dollar".data]

/-- Prepositions of amount pattern 3 (`in|on|with`). -/
def AMOUNT_PREPS : List Str :=
  ["in".data, "on".data, "with".data]

/-- Amount pattern 1 at a position:
`(\d+(?:,\d{3})*(?:\.\d+)?)\s*(?:usdc|usdt|usd|dollars?)`. -/
def matchP1At (s : Str) : Option Str :=
  match parseNumAt s with
  | some (num, rest) =>
    let rest2 := rest.dropWhile Char.isWhitespace
    if CURRENCY_WORDS.any (fun w => w.isPrefixOf rest2) then some num else none
  | none => none

/-- Amount pattern 2 at a position: `\$\s*(\d+(?:,\d{3})*(?:\.\d+)?)`. -/
def matchP2At (s : Str) : Option Str :=
  match s with
  | '$' :: t =>
    let t2 := t.dropWhile Char.isWhitespace
    match parseNumAt t2 with
    | some (num, _) => some num
    | none => none
  | _ => none

/-- Amount pattern 3 at a position:
`(\d+(?:,\d{3})*(?:\.\d+)?)\s+(?:in|on|with)`. -/
def matchP3At (s : Str) : Option Str :=
  match parseNumAt s with
  | some (num, rest) =>
    match rest with
    | c :: t =>
      if c.isWhitespace then
        let t2 := t.dropWhile Char.isWhitespace
        if AMOUNT_PREPS.any (fun w => w.isPrefixOf t2) then some num else none
      else none
    | [] => none
  | none => none

/-- `re.search` with a positional matcher: leftmost match wins. -/
def searchAmount (f : Str → Option Str) : Str → Option Str
  | [] => f []
  | a :: rest =>
    match f (a :: rest) with
    | some m => some m
    | none => searchAmount f rest

/-- `QueryClassifier._extract_amount`: the three patterns are tried in
source order, each scanned leftmost-first. (The `float` conversion cannot
raise on a matched group, so the `try/except` is not modelled.) -/
def extract_amount (query : Str) : Option ℚ :=
  match searchAmount matchP1At query with
  | some num => some (ratOfNumStr num)
  | none =>
    match searchAmount matchP2At query with
    | some num => some (ratOfNumStr num)
    | none => (searchAmount matchP3At query).map ratOfNumStr

/-- Currency vocabulary of `QueryClassifier._extract_currency`. -/
def CURRENCIES : List Str :=
  ["usdc".data, "usdt".data, "usd".data, "sol".data, "eth".data, "btc".data]

/-- `QueryClassifier._extract_currency`: first vocabulary word that occurs
as a substring, uppercased. -/
def extract_currency (query : Str) : Option Str :=
  (CURRENCIES.find? (fun c => isSubstr c query)).map pyUpper

/-- The `min(matches * 0.1, 0.4)` keyword bonus of
`QueryClassifier._calculate_confidence`. -/
def kwBonus (kws : List Str) (query : Str) : ℚ :=
  min ((kws.countP (fun kw => isSubstr kw query) : ℚ) * (1 / 10)) (4 / 10)

/-- `QueryClassifier._calculate_confidence`: base 0.5, plus the keyword
bonus for the winning type, plus 0.1 each for an extracted pool id and an
extracted amount, clamped to at most 1. -/
def calculate_confidence (query : Str) (query_type : String) : ℚ :=
  let base : ℚ := 1 / 2
  let withKw :=
    if query_type = "earnings" then base + kwBonus EARNINGS_KEYWORDS query
    else if query_type = "risk" then base + kwBonus RISK_KEYWORDS query
    else if query_type = "technical" then base + kwBonus TECHNICAL_KEYWORDS query
    else base
  let withPool := if (extract_pool_id query).isSome then withKw + 1 / 10 else withKw
  let withAmt := if (extract_amount query).isSome then withPool + 1 / 10 else withPool
  min withAmt 1

/-- Result record of `QueryClassifier.classify`. -/
structure Classification where
  query_type : String
  pool_id : Option Str
  amount : Option ℚ
  currency : Option Str
  confidence : ℚ
  requires_apr : Bool
deriving DecidableEq, Repr

/-- `QueryClassifier.classify`. Note `self._extract_pool_id(query_lower) if
not pool_id else pool_id`: a falsy (`None` or empty) explicit pool id falls
back to extraction. The function is total: classification never raises. -/
def classify (query : Str) (pool_id : Option Str) : Classification :=
  let query_lower := pyLower query
  let query_type := determine_type query_lower
  let extracted_pool := if pyTruthyOptStr pool_id then pool_id
                        else extract_pool_id query_lower
  let extracted_amount := extract_amount query_lower
  let extracted_currency := extract_currency query_lower
  let conf := calculate_confidence query_lower query_type
  { query_type := query_type, pool_id := extracted_pool, amount := extracted_amount,
    currency := extracted_currency, confidence := conf,
    requires_apr := query_type == "earnings" }

/-! ## Data model (`app/models/database.py`) -/

/-- Embedding vectors (pgvector column), dimension left abstract. -/
abbrev Vec := List ℚ

/-- A row of the `query_cache` table (class `QueryCache`). -/
structure QueryCache where
  id : Nat
  query_text : Str
  query_embedding : Option Vec
  query_type : String
  dapp : Str
  pool_id : Option Str
  amount : Option ℚ
  currency : Option Str
  client_id : Option Str
  response_json : String
  confidence : Option ℚ
  llm_provider : String
  llm_model : String
  use_count : Nat
  last_used_at : Int
  created_at : Int
  updated_at : Int
deriving DecidableEq, Repr

/-- A row of the `documents` table (class `Document`). -/
structure DocumentRow where
  id : Nat
  title : Str
  content : Str
  url : Str
  dapp : Str
  doc_type : String
  embedding : Option Vec
  meta_data : Option String
  created_at : Int
  updated_at : Int
deriving DecidableEq, Repr

/-! ## CacheService (`app/services/cache_service.py`) -/

/-- The store's `ORDER BY distance ASC LIMIT 1`: an element of the list
minimising the key (ties resolved to the earliest row; SQL leaves tie
order unspecified, and no property proved here depends on it). -/
def nearestBy (f : α → ℚ) : List α → Option α
  | [] => none
  | x :: xs =>
    match nearestBy f xs with
    | none => some x
    | some y => if f x ≤ f y then some x else some y

/-- The filtered candidate rows of `CacheService.get_cached_response`:
`query_embedding IS NOT NULL`, `dapp == dapp`, and — only when
`max_age_seconds` is truthy (`if max_age_seconds:` skips both `None` and
`0`) — `updated_at >= utcnow() - max_age_seconds`. -/
def cacheCandidates (db : List QueryCache) (dapp : Str) (max_age_seconds : Option Int)
    (now : Int) : List QueryCache :=
  db.filter (fun e =>
    e.query_embedding.isSome && decide (e.dapp = dapp) &&
    (match max_age_seconds with
     | none => true
     | some a => if a = 0 then true else decide (now - a ≤ e.updated_at)))

/-- `CacheService.get_cached_response`: embed the query, take the nearest
same-`dapp` row by cosine distance, and return it (with the measured
similarity `1 - distance`) only if the similarity reaches the threshold.
The source returns the row's `response_json` annotated with `_cached` and
`_cache_similarity`; the model returns the selected row and the measured
similarity instead. The `use_count`/`last_used_at` update performed on a
hit (`_update_cache_stats`) is a side effect no claim depends on and is
not modelled. -/
def get_cached_response (dist : Vec → Vec → ℚ) (encode : Str → Vec)
    (db : List QueryCache) (query : Str) (dapp : Str) (similarity_threshold : ℚ)
    (max_age_seconds : Option Int) (now : Int) : Option (QueryCache × ℚ) :=
  let query_embedding := encode query
  match nearestBy (fun e => dist (e.query_embedding.getD []) query_embedding)
      (cacheCandidates db dapp max_age_seconds now) with
  | none => none
  | some e =>
    let similarity := 1 - dist (e.query_embedding.getD []) query_embedding
    if similarity < similarity_threshold then none
    else some (e, similarity)

/-- Redis, as an association list from key to serialised payload. The TTL
passed to `setex` only governs server-side expiry and is not modelled (no
claim concerns expiry). -/
abbrev RedisState := List (Str × String)

/-- Redis `SETEX`: overwrite the key. -/
def redisSet (st : RedisState) (k : Str) (v : String) : RedisState :=
  (k, v) :: st.filter (fun p => !(decide (p.1 = k)))

/-- Redis `GET`. -/
def redisGet (st : RedisState) (k : Str) : Option String :=
  (st.find? (fun p => decide (p.1 = k))).map (fun p => p.2)

/-- The exact-match cache key of `CacheService._cache_in_redis` /
`get_from_redis`: `"query_cache:" + sha256(query.lower()).hexdigest()`.
The hash itself is an external deterministic function, abstracted as
`digest`; note the key contains no scope (`dapp`) component and the query
is lowercased but not trimmed. -/
def redisKey (digest : Str → Str) (query : Str) : Str :=
  ("query_cache:".data) ++ digest (pyLower query)

/-- `CacheService._cache_in_redis` (the `try/except` swallows store
failures; the model is the successful path). -/
def cache_in_redis (digest : Str → Str) (st : RedisState) (query : Str)
    (response : String) : RedisState :=
  redisSet st (redisKey digest query) response

/-- `CacheService.get_from_redis`: exact-match lookup. The source method
takes no scope argument at all (its caller in `ask.py` passes `dapp=`,
which the signature rejects). -/
def get_from_redis (digest : Str → Str) (st : RedisState) (query : Str) : Option String :=
  redisGet st (redisKey digest query)

/-- `CacheService.save_response`: insert a fresh `QueryCache` row
(`use_count = 1`, timestamps `now`) and write the exact-match Redis key.
Returns the new table, the new Redis state, and the created row. -/
def save_response (encode : Str → Vec) (digest : Str → Str) (db : List QueryCache)
    (redis : RedisState) (query : Str) (response : String) (dapp : Str)
    (query_type : String) (pool_id : Option Str) (amount : Option ℚ)
    (currency : Option Str) (client_id : Option Str) (llm_provider llm_model : String)
    (confidence : Option ℚ) (now : Int) (newId : Nat) :
    List QueryCache × RedisState × QueryCache :=
  let entry : QueryCache :=
    { id := newId, query_text := query, query_embedding := some (encode query),
      query_type := query_type, dapp := dapp, pool_id := pool_id, amount := amount,
      currency := currency, client_id := client_id, response_json := response,
      confidence := confidence, llm_provider := llm_provider, llm_model := llm_model,
      use_count := 1, last_used_at := now, created_at := now, updated_at := now }
  (db ++ [entry], cache_in_redis digest redis query response, entry)

/-- `CacheService.invalidate_cache`: a `DELETE` whose `WHERE` clauses are
appended only for truthy arguments (`if pool_id:` / `if older_than_hours:`
— `None`, `""` and `0` all skip the clause; no `dapp`/scope clause exists).
Returns the remaining rows and the `rowcount` of deleted rows. -/
def invalidate_cache (db : List QueryCache) (pool_id : Option Str)
    (older_than_hours : Option Int) (now : Int) : List QueryCache × Nat :=
  let cond1 : QueryCache → Bool :=
    if pyTruthyOptStr pool_id then fun e => decide (e.pool_id = pool_id)
    else fun _ => true
  let cond2 : QueryCache → Bool :=
    if pyTruthyOptInt older_than_hours then
      fun e => cond1 e && decide (e.updated_at < now - 3600 * older_than_hours.getD 0)
    else cond1
  (db.filter (fun e => !(cond2 e)), (db.filter cond2).length)

/-! ## RAGService (`app/services/rag_service.py`) -/

/-- `RAGService.retrieve_relevant_documents`: embed the query, rank the
same-`dapp` rows with non-null embeddings by ascending cosine distance,
over-fetch `top_k * 2`, keep rows whose similarity `1 - distance` reaches
the threshold, and stop after `top_k` (the source loop `break`s once
`top_k` rows are collected, which equals filtering then taking `top_k`).
Each returned row is paired with its similarity (the source returns a dict
of the row's columns plus `similarity`). -/
def retrieve_relevant_documents (dist : Vec → Vec → ℚ) (encode : Str → Vec)
    (db : List DocumentRow) (query : Str) (top_k : Nat) (similarity_threshold : ℚ)
    (dapp : Str) : List (DocumentRow × ℚ) :=
  let query_embedding := encode query
  let rows := (List.insertionSort
      (fun a b => dist (a.embedding.getD []) query_embedding ≤
                  dist (b.embedding.getD []) query_embedding)
      (db.filter (fun d => decide (d.dapp = dapp) && d.embedding.isSome))).take (top_k * 2)
  ((rows.map (fun d => (d, 1 - dist (d.embedding.getD []) query_embedding))).filter
      (fun p => decide (similarity_threshold ≤ p.2))).take top_k

/-- The formatted block of one document in `RAGService.build_context`:
`f"[{doc['title']}]\n{doc['content']}\nSource: {doc['url']}\n"`. -/
def doc_text (d : DocumentRow) : Str :=
  ("[".data) ++ d.title ++ ("]\n".data) ++ d.content ++ ("\nSource: ".data) ++
    d.url ++ ("\n".data)

/-- The accumulation loop of `RAGService.build_context`: greedily append
blocks while they fit (`current_length` counts only block lengths, not the
joining separators); on the first block that would overflow, append its
truncation (`doc_text[:remaining] + "..."`) only when more than 100
characters of budget remain, then stop. -/
def buildContextLoop : List DocumentRow → Nat → Nat → List Str
  | [], _, _ => []
  | d :: ds, current_length, max_length =>
    let t := doc_text d
    if max_length < current_length + t.length then
      let remaining := max_length - current_length
      if 100 < remaining then [t.take remaining ++ ("...".data)] else []
    else t :: buildContextLoop ds (current_length + t.length) max_length

/-- `RAGService.build_context`: blocks joined by a blank line
(`"\n\n".join`); empty input short-circuits to the empty string. The
source consumes the dicts produced by `retrieve_relevant_documents`; the
model consumes the rows (only `title`, `content`, `url` are read). -/
def build_context (documents : List DocumentRow) (max_length : Nat) : Str :=
  if documents.isEmpty then []
  else List.intercalate ("\n\n".data) (buildContextLoop documents 0 max_length)

/-! ## Chunker (`app/cli/scraper.py`, `GitBookScraper.chunk_content`) -/

/-- Python `str.rfind(c)`: index of the last occurrence, or `-1`. -/
def rfind (c : Char) : Str → Int
  | [] => -1
  | a :: s =>
    if rfind c s ≥ 0 then rfind c s + 1
    else if a = c then 0 else -1

/-- One iteration body of `chunk_content`'s window loop (source lines: `end =
start + chunk_size; chunk = content[start:end]; if end < len(content): ...
break at the last sentence terminator or newline past the window midpoint`).
Returns the window end actually used and the chunk text cut for it. The
float comparison `break_point > chunk_size * 0.5` is the exact integer test
`2 * break_point > chunk_size` (halves are exactly representable). -/
def chunkCut (content : Str) (chunk_size : Nat) (start : Nat) : Nat × Str :=
  let chunk0 := pySlice content start (start + chunk_size)
  if start + chunk_size < content.length then
    let break_point := max (rfind '.' chunk0) (rfind '\n' chunk0)
    if 2 * break_point > (chunk_size : Int) then
      (start + break_point.toNat + 1, chunk0.take (break_point.toNat + 1))
    else (start + chunk_size, chunk0)
  else (start + chunk_size, chunk0)

/-- The `while start < len(content)` loop of `chunk_content`, with explicit
fuel consumed once per executed iteration (the Python loop's termination is
exactly the claim that enough fuel exists). Each produced triple records
the window `[start, end)` alongside the emitted `chunk.strip()` (the source
keeps only the chunk). The loop variable `start` is a `Nat`: Python's `int`
could go negative only when `overlap` exceeds the cut point, which cannot
happen under the `2 * overlap < chunk_size` precondition of every property
proved below. -/
def chunkLoop (content : Str) (chunk_size overlap : Nat) :
    Nat → Nat → Option (List (Nat × Nat × Str))
  | fuel, start =>
    if start < content.length then
      match fuel with
      | 0 => none
      | fuel' + 1 =>
        let p := chunkCut content chunk_size start
        match chunkLoop content chunk_size overlap fuel' (p.1 - overlap) with
        | none => none
        | some rest => some ((start, p.1, pyStrip p.2) :: rest)
    else some []

/-- `GitBookScraper.chunk_content`: content no longer than `chunk_size` is
returned as the single chunk `[content]` (as-is); longer content goes
through the sliding-window loop, run here with fuel `content.length + 1`
(shown sufficient whenever `2 * overlap < chunk_size`). -/
def chunk_content (content : Str) (chunk_size overlap : Nat) : Option (List Str) :=
  if content.length ≤ chunk_size then some [content]
  else (chunkLoop content chunk_size overlap (content.length + 1) 0).map
    (fun l => l.map (fun t => t.2.2))

/-! ## Auxiliary predicates and concrete instances used in the theorems -/

/-- The window-chaining discipline of `chunk_content`: the first window
starts at `s`, and every following window starts at the previous window's
end minus `overlap`. -/
def windowChain (overlap : Nat) : Nat → List (Nat × Nat × Str) → Prop
  | _, [] => True
  | s, t :: rest => t.1 = s ∧ windowChain overlap (t.2.1 - overlap) rest

/-- A concrete stand-in for the store's cosine-distance metric: distance 0
between equal vectors, 2 otherwise (the extreme values of cosine
distance). Used to instantiate theorems at concrete inputs. -/
def cDist : Vec → Vec → ℚ := fun a b => if a = b then 0 else 2

/-- A concrete deterministic embedding provider. -/
def cEncode : Str → Vec := fun _ => [1]

/-- A concrete stand-in for the deterministic `sha256` hex digest. -/
def cDigest : Str → Str := fun s => s

/-- A cached row under scope `kamino`, last updated at time 0. -/
def staleEntry : QueryCache :=
  { id := 1, query_text := "what is kamino?".data, query_embedding := some [1],
    query_type := "general", dapp := "kamino".data, pool_id := none, amount := none,
    currency := none, client_id := none, response_json := "cached answer",
    confidence := none, llm_provider := "openai", llm_model := "gpt-4",
    use_count := 1, last_used_at := 0, created_at := 0, updated_at := 0 }

/-- A cached row under scope `other` for pool `allez-usdc`. -/
def otherScopeEntry : QueryCache :=
  { id := 2, query_text := "apr of allez usdc?".data, query_embedding := some [1],
    query_type := "earnings", dapp := "other".data, pool_id := some ("allez-usdc".data),
    amount := none, currency := none, client_id := none, response_json := "other answer",
    confidence := none, llm_provider := "openai", llm_model := "gpt-4",
    use_count := 1, last_used_at := 0, created_at := 0, updated_at := 0 }

/-- A cached row under scope `kamino` for pool `jito-sol`, updated late. -/
def keptEntry : QueryCache :=
  { id := 3, query_text := "jito?".data, query_embedding := some [1],
    query_type := "general", dapp := "kamino".data, pool_id := some ("jito-sol".data),
    amount := none, currency := none, client_id := none, response_json := "jito answer",
    confidence := none, llm_provider := "openai", llm_model := "gpt-4",
    use_count := 1, last_used_at := 9000, created_at := 9000, updated_at := 9000 }

/-- A document row under scope `kamino` with one-character fields. -/
def cDoc : DocumentRow :=
  { id := 0, title := "t".data, content := "c".data, url := "u".data,
    dapp := "kamino".data, doc_type := "documentation", embedding := some [1],
    meta_data := none, created_at := 0, updated_at := 0 }

/-! ## Theorems -/

/-- C10: for every query string and optional explicit pool id, `classify`
is total (the Lean model is a total function, matching the source's
never-raising classification) and its confidence lies in `[0.5, 1]`: the
base 0.5 is a hard lower bound since every adjustment is non-negative, and
the result is clamped at 1. -/
theorem classify_confidence_bounds (query : Str) (pool_id : Option Str) :
    1 / 2 ≤ (classify query pool_id).confidence ∧ (classify query pool_id).confidence ≤ 1 := by
  have key : ∀ (q : Str) (t : String),
      1 / 2 ≤ calculate_confidence q t ∧ calculate_confidence q t ≤ 1 := by
    intro q t
    have hb : ∀ kws, (0 : ℚ) ≤ kwBonus kws q := fun kws =>
      le_min (by positivity) (by norm_num)
    unfold calculate_confidence
    dsimp only
    constructor
    · refine le_min ?_ (by norm_num)
      split_ifs <;>
        linarith [hb EARNINGS_KEYWORDS, hb RISK_KEYWORDS, hb TECHNICAL_KEYWORDS]
    · exact min_le_right _ _
  simpa [classify] using key (pyLower query) (determine_type (pyLower query))

/-- C8: the classifier's type is decided by ordered keyword-set membership
on the lowercased query — earnings first, then risk, then technical, else
general — so a query matching an earnings keyword classifies as earnings
even if it also matches a risk keyword, and `"Is it risky to deposit
here?"` classifies as risk although it contains the technical keyword
`"deposit"`. -/
theorem classify_type_priority :
    (∀ (q : Str) (p : Option Str),
        EARNINGS_KEYWORDS.any (fun kw => isSubstr kw (pyLower q)) = true →
        (classify q p).query_type = "earnings") ∧
    (∀ (q : Str) (p : Option Str),
        EARNINGS_KEYWORDS.any (fun kw => isSubstr kw (pyLower q)) = false →
        RISK_KEYWORDS.any (fun kw => isSubstr kw (pyLower q)) = true →
        (classify q p).query_type = "risk") ∧
    (∀ (q : Str) (p : Option Str),
        EARNINGS_KEYWORDS.any (fun kw => isSubstr kw (pyLower q)) = false →
        RISK_KEYWORDS.any (fun kw => isSubstr kw (pyLower q)) = false →
        TECHNICAL_KEYWORDS.any (fun kw => isSubstr kw (pyLower q)) = true →
        (classify q p).query_type = "technical") ∧
    (∀ (q : Str) (p : Option Str),
        EARNINGS_KEYWORDS.any (fun kw => isSubstr kw (pyLower q)) = false →
        RISK_KEYWORDS.any (fun kw => isSubstr kw (pyLower q)) = false →
        TECHNICAL_KEYWORDS.any (fun kw => isSubstr kw (pyLower q)) = false →
        (classify q p).query_type = "general") ∧
    (classify ("Is it risky to deposit here?".data) none).query_type = "risk" ∧
    isSubstr ("deposit".data) (pyLower ("Is it risky to deposit here?".data)) = true := by
  refine ⟨?_, ?_, ?_, ?_, by decide, by decide⟩
  · intro q p h; simp [classify, determine_type, h]
  · intro q p h1 h2; simp [classify, determine_type, h1, h2]
  · intro q p h1 h2 h3; simp [classify, determine_type, h1, h2, h3]
  · intro q p h1 h2 h3; simp [classify, determine_type, h1, h2, h3]

/-- Witness for C8: the spec's own example discharges the risk conjunct. -/
theorem classify_type_priority_witness :
    EARNINGS_KEYWORDS.any (fun kw => isSubstr kw (pyLower ("Is it risky to deposit here?".data))) = false ∧
    RISK_KEYWORDS.any (fun kw => isSubstr kw (pyLower ("Is it risky to deposit here?".data))) = true ∧
    (classify ("Is it risky to deposit here?".data) none).query_type = "risk" :=
  ⟨by decide, by decide, classify_type_priority.2.1 _ none (by decide) (by decide)⟩

/-- A result of `nearestBy` is an element of its input list. -/
theorem nearestBy_mem {α : Type} {f : α → ℚ} :
    ∀ {l : List α} {x : α}, nearestBy f l = some x → x ∈ l := by
  intro l
  induction l with
  | nil => intro x h; simp [nearestBy] at h
  | cons a l ih =>
    intro x h
    cases hn : nearestBy f l with
    | none =>
      simp only [nearestBy, hn] at h
      cases h
      exact List.mem_cons_self _ _
    | some y =>
      simp only [nearestBy, hn] at h
      by_cases hc : f a ≤ f y
      · rw [if_pos hc] at h; cases h; exact List.mem_cons_self _ _
      · rw [if_neg hc] at h; cases h; exact List.mem_cons_of_mem _ (ih hn)

/-- `nearestBy` returns `none` only on the empty list. -/
theorem nearestBy_eq_none {α : Type} {f : α → ℚ} :
    ∀ {l : List α}, nearestBy f l = none → l = [] := by
  intro l
  cases l with
  | nil => intro h; rfl
  | cons a l =>
    intro h
    cases hn : nearestBy f l with
    | none => simp [nearestBy, hn] at h
    | some y =>
      simp only [nearestBy, hn] at h
      by_cases hc : f a ≤ f y
      · rw [if_pos hc] at h; cases h
      · rw [if_neg hc] at h; cases h

/-- `nearestBy` minimises its key over the list (the store's
`ORDER BY distance ASC LIMIT 1`). -/
theorem nearestBy_le {α : Type} {f : α → ℚ} :
    ∀ {l : List α} {x : α}, nearestBy f l = some x → ∀ y ∈ l, f x ≤ f y := by
  intro l
  induction l with
  | nil => intro x h; simp [nearestBy] at h
  | cons a l ih =>
    intro x h y hy
    cases hn : nearestBy f l with
    | none =>
      have hl : l = [] := nearestBy_eq_none hn
      subst hl
      simp only [nearestBy] at h
      cases h
      rcases List.mem_cons.mp hy with h1 | h1
      · subst h1; exact le_refl _
      · simp at h1
    | some z =>
      simp only [nearestBy, hn] at h
      by_cases hc : f a ≤ f z
      · rw [if_pos hc] at h
        cases h
        rcases List.mem_cons.mp hy with h1 | h1
        · subst h1; exact le_refl _
        · exact le_trans hc (ih hn y h1)
      · rw [if_neg hc] at h
        cases h
        rcases List.mem_cons.mp hy with h1 | h1
        · subst h1; exact le_of_not_le hc
        · exact ih hn y h1

/-- Membership in the filtered candidate rows of the semantic lookup,
decoded: in the table, non-null embedding, matching scope, and fresh
enough whenever the age filter is active (a truthy `max_age_seconds`). -/
theorem mem_cacheCandidates {db : List QueryCache} {dapp : Str}
    {ma : Option Int} {now : Int} {e : QueryCache} :
    e ∈ cacheCandidates db dapp ma now ↔
      e ∈ db ∧ e.query_embedding.isSome = true ∧ e.dapp = dapp ∧
        (∀ a, ma = some a → a ≠ 0 → now - a ≤ e.updated_at) := by
  cases ma with
  | none => simp [cacheCandidates, List.mem_filter, and_assoc]
  | some a =>
    by_cases ha : a = 0
    · subst ha
      simp [cacheCandidates, List.mem_filter, and_assoc]
    · simp [cacheCandidates, List.mem_filter, ha, and_assoc]

/-- Inversion of a semantic-cache hit: the nearest candidate was selected,
the returned similarity is `1 - distance`, and it reached the threshold. -/
theorem get_cached_response_some {dist : Vec → Vec → ℚ} {encode : Str → Vec}
    {db : List QueryCache} {query dapp : Str} {thr : ℚ} {ma : Option Int} {now : Int}
    {e : QueryCache} {s : ℚ}
    (h : get_cached_response dist encode db query dapp thr ma now = some (e, s)) :
    nearestBy (fun e2 => dist (e2.query_embedding.getD []) (encode query))
      (cacheCandidates db dapp ma now) = some e ∧
    s = 1 - dist (e.query_embedding.getD []) (encode query) ∧ thr ≤ s := by
  unfold get_cached_response at h
  dsimp only at h
  cases hn : nearestBy (fun e2 => dist (e2.query_embedding.getD []) (encode query))
      (cacheCandidates db dapp ma now) with
  | none => simp only [hn] at h; cases h
  | some e0 =>
    simp only [hn] at h
    by_cases hc : 1 - dist (e0.query_embedding.getD []) (encode query) < thr
    · simp only [if_pos hc] at h; cases h
    · simp only [if_neg hc] at h
      cases h
      exact ⟨rfl, rfl, not_lt.mp hc⟩

/-- C1 (amended): a semantic-cache hit is a row of the table with the
requested scope, whose similarity `1 - cosineDistance` reached the floor,
which is nearest among the eligible candidates, and which satisfies
`updatedAt >= now - maxAgeSeconds` whenever `maxAgeSeconds` is given AND
nonzero — `max_age_seconds = 0` is falsy in `if max_age_seconds:`, so it
disables the age filter instead of forcing absence. -/
theorem get_cached_response_hit_conditions
    (dist : Vec → Vec → ℚ) (encode : Str → Vec) (db : List QueryCache)
    (query dapp : Str) (thr : ℚ) (ma : Option Int) (now : Int)
    (e : QueryCache) (s : ℚ)
    (h : get_cached_response dist encode db query dapp thr ma now = some (e, s)) :
    e ∈ db ∧ e.dapp = dapp ∧ thr ≤ s ∧
    s = 1 - dist (e.query_embedding.getD []) (encode query) ∧
    (∀ a, ma = some a → a ≠ 0 → now - a ≤ e.updated_at) ∧
    (∀ e2 ∈ cacheCandidates db dapp ma now,
        dist (e.query_embedding.getD []) (encode query) ≤
          dist (e2.query_embedding.getD []) (encode query)) := by
  obtain ⟨hn, hs, hthr⟩ := get_cached_response_some h
  obtain ⟨hdb, -, hdapp, hage⟩ := mem_cacheCandidates.mp (nearestBy_mem hn)
  exact ⟨hdb, hdapp, hthr, hs, hage, fun e2 he2 => nearestBy_le hn e2 he2⟩

/-- C1 counterexample: with `maxAgeSeconds = 0` and a 1000-second delay
since the entry was stored, an exact textual match still returns a hit
(the claim requires absence). -/
theorem get_cached_response_maxage_zero_counterexample :
    get_cached_response cDist cEncode [staleEntry] ("what is kamino?".data)
        ("kamino".data) (95 / 100) (some 0) 1000 = some (staleEntry, 1) ∧
    staleEntry.updated_at < 1000 - 0 := by
  exact ⟨by with_unfolding_all decide, by with_unfolding_all decide⟩

/-- Witness for C1: a concrete hit under an active (nonzero) age filter
satisfies every condition of the amended theorem. -/
theorem get_cached_response_hit_conditions_witness :
    get_cached_response cDist cEncode [staleEntry] ("what is kamino?".data)
        ("kamino".data) (95 / 100) (some 500) 400 = some (staleEntry, 1) ∧
    (staleEntry ∈ [staleEntry] ∧ staleEntry.dapp = "kamino".data ∧ (95 / 100 : ℚ) ≤ 1 ∧
      (1 : ℚ) = 1 - cDist (staleEntry.query_embedding.getD [])
        (cEncode ("what is kamino?".data)) ∧
      (∀ a, (some 500 : Option Int) = some a → a ≠ 0 → 400 - a ≤ staleEntry.updated_at) ∧
      (∀ e2 ∈ cacheCandidates [staleEntry] ("kamino".data) (some 500) 400,
          cDist (staleEntry.query_embedding.getD []) (cEncode ("what is kamino?".data)) ≤
            cDist (e2.query_embedding.getD []) (cEncode ("what is kamino?".data)))) :=
  ⟨by with_unfolding_all decide,
   get_cached_response_hit_conditions cDist cEncode [staleEntry] ("what is kamino?".data)
     ("kamino".data) (95 / 100) (some 500) 400 staleEntry 1 (by with_unfolding_all decide)⟩

/-- C3: scope isolation of the semantic-cache lookup and of document
retrieval — a returned row always carries exactly the requested scope, so
an entry stored under a different scope is never returned, regardless of
similarity. -/
theorem scope_isolation :
    (∀ (dist : Vec → Vec → ℚ) (encode : Str → Vec) (db : List QueryCache)
        (query dapp : Str) (thr : ℚ) (ma : Option Int) (now : Int)
        (e : QueryCache) (s : ℚ),
        get_cached_response dist encode db query dapp thr ma now = some (e, s) →
        e.dapp = dapp) ∧
    (∀ (dist : Vec → Vec → ℚ) (encode : Str → Vec) (db : List DocumentRow)
        (query : Str) (top_k : Nat) (thr : ℚ) (dapp : Str) (d : DocumentRow) (s : ℚ),
        (d, s) ∈ retrieve_relevant_documents dist encode db query top_k thr dapp →
        d.dapp = dapp) := by
  constructor
  · intro dist encode db query dapp thr ma now e s h
    obtain ⟨hn, -, -⟩ := get_cached_response_some h
    exact (mem_cacheCandidates.mp (nearestBy_mem hn)).2.2.1
  · intro dist encode db query top_k thr dapp d s h
    unfold retrieve_relevant_documents at h
    dsimp only at h
    have h1 := List.take_subset _ _ h
    have h2 := (List.mem_filter.mp h1).1
    obtain ⟨d0, hd0, heq⟩ := List.mem_map.mp h2
    obtain ⟨hd, -⟩ := Prod.mk.injEq .. ▸ heq
    subst hd
    have h3 := List.take_subset _ _ hd0
    have h4 := (List.mem_insertionSort _).mp h3
    have h5 := (List.mem_filter.mp h4).2
    simp only [Bool.and_eq_true, decide_eq_true_eq] at h5
    exact h5.1

/-- Witness for C3: the two conjuncts applied at concrete stores. -/
theorem scope_isolation_witness :
    (get_cached_response cDist cEncode [staleEntry] ("what is kamino?".data)
        ("kamino".data) (95 / 100) none 50 = some (staleEntry, 1) ∧
      staleEntry.dapp = "kamino".data) ∧
    (((cDoc, (1 : ℚ)) ∈ retrieve_relevant_documents cDist cEncode [cDoc]
        ("what is kamino?".data) 3 (7 / 10) ("kamino".data)) ∧
      cDoc.dapp = "kamino".data) :=
  ⟨⟨by with_unfolding_all decide, scope_isolation.1 cDist cEncode [staleEntry] ("what is kamino?".data)
      ("kamino".data) (95 / 100) none 50 staleEntry 1 (by with_unfolding_all decide)⟩,
   ⟨by with_unfolding_all decide, scope_isolation.2 cDist cEncode [cDoc] ("what is kamino?".data)
      3 (7 / 10) ("kamino".data) cDoc 1 (by with_unfolding_all decide)⟩⟩

/-- After inserting a row whose embedding is the query's own embedding and
whose scope matches, a lookup with floor 0.95 and no age filter hits with
similarity exactly 1 (given that the metric is zero on identical vectors
and non-negative, as cosine distance is). -/
theorem lookup_after_insert (dist : Vec → Vec → ℚ) (encode : Str → Vec)
    (db : List QueryCache) (E : QueryCache) (q dapp : Str) (now2 : Int)
    (hemb : E.query_embedding = some (encode q)) (hdapp : E.dapp = dapp)
    (hself : dist (encode q) (encode q) = 0) (hnonneg : ∀ a b, 0 ≤ dist a b) :
    ∃ e s, get_cached_response dist encode (db ++ [E]) q dapp (95 / 100) none now2 =
      some (e, s) ∧ s = 1 := by
  have hmem : E ∈ cacheCandidates (db ++ [E]) dapp none now2 := by
    rw [mem_cacheCandidates]
    exact ⟨List.mem_append_right _ (List.mem_singleton.mpr rfl),
      by rw [hemb]; rfl, hdapp, fun a ha => nomatch ha⟩
  cases hx : nearestBy (fun e2 => dist (e2.query_embedding.getD []) (encode q))
      (cacheCandidates (db ++ [E]) dapp none now2) with
  | none => exact absurd (nearestBy_eq_none hx) (List.ne_nil_of_mem hmem)
  | some x =>
    have hle := nearestBy_le hx E hmem
    have hfe : dist (E.query_embedding.getD []) (encode q) = 0 := by
      rw [hemb]; simpa using hself
    have hx0 : dist (x.query_embedding.getD []) (encode q) = 0 := by
      have h1 : dist (x.query_embedding.getD []) (encode q) ≤ 0 := by
        simpa [hfe] using hle
      exact le_antisymm h1 (hnonneg _ _)
    refine ⟨x, 1, ?_, rfl⟩
    unfold get_cached_response
    simp only [hx]
    rw [hx0]
    norm_num

/-- C9: `save_response(q, scope, payload)` followed by
`get_cached_response(q, scope, 0.95)` with the exact same text hits with
measured similarity exactly 1: the embedding provider is a fixed function
(deterministic, as the spec assumes), and cosine distance is zero on the
identical stored vector and non-negative everywhere (the two hypotheses). -/
theorem semantic_cache_round_trip
    (dist : Vec → Vec → ℚ) (encode : Str → Vec) (digest : Str → Str)
    (db : List QueryCache) (redis : RedisState) (q : Str) (resp : String) (dapp : Str)
    (query_type : String) (pool_id : Option Str) (amount : Option ℚ)
    (currency : Option Str) (client_id : Option Str) (llm_provider llm_model : String)
    (confidence : Option ℚ) (now now2 : Int) (newId : Nat)
    (hself : dist (encode q) (encode q) = 0)
    (hnonneg : ∀ a b, 0 ≤ dist a b) :
    ∃ e s,
      get_cached_response dist encode
        (save_response encode digest db redis q resp dapp query_type pool_id amount
          currency client_id llm_provider llm_model confidence now newId).1
        q dapp (95 / 100) none now2 = some (e, s) ∧ s = 1 := by
  have hdb : (save_response encode digest db redis q resp dapp query_type pool_id amount
      currency client_id llm_provider llm_model confidence now newId).1 =
      db ++ [⟨newId, q, some (encode q), query_type, dapp, pool_id, amount, currency,
        client_id, resp, confidence, llm_provider, llm_model, 1, now, now, now⟩] := rfl
  rw [hdb]
  exact lookup_after_insert dist encode db _ q dapp now2 rfl rfl hself hnonneg

/-- Witness for C9: a concrete store-then-lookup round trip. -/
theorem semantic_cache_round_trip_witness :
    cDist (cEncode ("hi".data)) (cEncode ("hi".data)) = 0 ∧
    (∃ e s, get_cached_response cDist cEncode
        (save_response cEncode cDigest [] [] ("hi".data) "ans" ("kamino".data) "general"
          none none none none "openai" "gpt-4" none 0 7).1
        ("hi".data) ("kamino".data) (95 / 100) none 5 = some (e, s) ∧ s = 1) :=
  ⟨by with_unfolding_all decide,
   semantic_cache_round_trip cDist cEncode cDigest [] [] ("hi".data) "ans" ("kamino".data)
     "general" none none none none "openai" "gpt-4" none 0 5 7
     (by with_unfolding_all decide)
     (fun a b => by unfold cDist; split <;> norm_num)⟩

/-- C2 (code-bug evidence): the exact-match Redis key is
`sha256(query.lower())` with no scope component and no trimming, so a
payload saved while serving scope `kamino` is returned verbatim by the
scope-free exact-match lookup that a request for any other scope performs
(first conjunct; lowercasing makes the differently-cased query hit), and
the key is not trim-normalised (second conjunct). In the source the
mismatch is sharper still: `ask.py` calls
`get_from_redis(request.query, dapp=dapp)` although the method accepts no
`dapp` argument. -/
theorem exact_cache_key_ignores_scope :
    get_from_redis cDigest
      (save_response cEncode cDigest [] [] ("What is Kamino?".data) "kamino answer"
        ("kamino".data) "general" none none none none "openai" "gpt-4" none 0 1).2.1
      ("what IS kamino?".data) = some "kamino answer" ∧
    redisKey cDigest (" query".data) ≠ redisKey cDigest ("query".data) := by
  exact ⟨by with_unfolding_all decide, by decide⟩

/-- C4 counterexample: `invalidate_cache` has no scope filter, so
`invalidate(poolId="allez-usdc")` — the only way the source can express
the claim's `invalidate(scope="kamino", poolId="allez-usdc")` — deletes an
entry whose scope is `other`, not `kamino`. -/
theorem invalidate_cache_ignores_scope_counterexample :
    (invalidate_cache [otherScopeEntry] (some ("allez-usdc".data)) none 0).1 = [] ∧
    (invalidate_cache [otherScopeEntry] (some ("allez-usdc".data)) none 0).2 = 1 ∧
    ¬ otherScopeEntry.dapp = "kamino".data := by
  exact ⟨by decide, by decide, by decide⟩

/-- C4 (amended): with a non-empty `poolId` and nonzero `olderThanHours`
supplied, `invalidate_cache` deletes exactly the entries matching both
filters (AND semantics) — with no scope filter, across all scopes — keeps
exactly the non-matching entries, and returns the exact count removed. -/
theorem invalidate_cache_and_semantics (db : List QueryCache) (p : Str) (h : Int)
    (now : Int) (hp : p ≠ []) (hh : h ≠ 0) :
    (invalidate_cache db (some p) (some h) now).1 =
      db.filter (fun e => !(decide (e.pool_id = some p) &&
        decide (e.updated_at < now - 3600 * h))) ∧
    (invalidate_cache db (some p) (some h) now).2 =
      (db.filter (fun e => decide (e.pool_id = some p) &&
        decide (e.updated_at < now - 3600 * h))).length ∧
    (invalidate_cache db (some p) (some h) now).2 +
      (invalidate_cache db (some p) (some h) now).1.length = db.length := by
  have hps : pyTruthyOptStr (some p) = true := by
    simp [pyTruthyOptStr, List.isEmpty_iff, hp]
  have hhs : pyTruthyOptInt (some h) = true := by
    simp [pyTruthyOptInt, hh]
  have hpart : ∀ (l : List QueryCache) (f : QueryCache → Bool),
      (l.filter f).length + (l.filter (fun e => !(f e))).length = l.length := by
    intro l f
    induction l with
    | nil => rfl
    | cons a l ih => by_cases hfa : f a <;> simp [List.filter_cons, hfa] <;> omega
  unfold invalidate_cache
  simp only [hps, hhs, if_true, Option.getD_some]
  refine ⟨by trivial, by trivial, ?_⟩
  exact hpart db _

/-- Witness for C4: both filters supplied; the matching row is removed,
the non-matching row survives, and the count is exact. -/
theorem invalidate_cache_and_semantics_witness :
    ("allez-usdc".data ≠ ([] : Str)) ∧ ((1 : Int) ≠ 0) ∧
    ((invalidate_cache [otherScopeEntry, keptEntry] (some ("allez-usdc".data))
        (some 1) 7200).1 =
      [otherScopeEntry, keptEntry].filter (fun e =>
        !(decide (e.pool_id = some ("allez-usdc".data)) &&
          decide (e.updated_at < 7200 - 3600 * 1))) ∧
    (invalidate_cache [otherScopeEntry, keptEntry] (some ("allez-usdc".data))
        (some 1) 7200).2 =
      ([otherScopeEntry, keptEntry].filter (fun e =>
        decide (e.pool_id = some ("allez-usdc".data)) &&
          decide (e.updated_at < 7200 - 3600 * 1))).length ∧
    (invalidate_cache [otherScopeEntry, keptEntry] (some ("allez-usdc".data))
        (some 1) 7200).2 +
      (invalidate_cache [otherScopeEntry, keptEntry] (some ("allez-usdc".data))
        (some 1) 7200).1.length = ([otherScopeEntry, keptEntry] : List QueryCache).length) :=
  ⟨by decide, by decide,
   invalidate_cache_and_semantics [otherScopeEntry, keptEntry] ("allez-usdc".data) 1 7200
     (by decide) (by decide)⟩

/-- The loop of `build_context` keeps the sum of emitted block lengths
(including a possible final truncated block and its `"..."` marker) within
`max_length + 3` of the budget already consumed. -/
theorem buildContextLoop_sum (ml : Nat) :
    ∀ (docs : List DocumentRow) (cur : Nat), cur ≤ ml →
      ((buildContextLoop docs cur ml).map List.length).sum + cur ≤ ml + 3 := by
  intro docs
  induction docs with
  | nil => intro cur h; simp [buildContextLoop]; omega
  | cons d ds ih =>
    intro cur h
    rw [buildContextLoop]
    dsimp only
    by_cases h1 : ml < cur + (doc_text d).length
    · rw [if_pos h1]
      by_cases h2 : 100 < ml - cur
      · rw [if_pos h2]
        simp only [List.map_cons, List.map_nil, List.sum_cons, List.sum_nil,
          List.length_append, List.length_take, List.length_cons, List.length_nil]
        have h4 := Nat.min_le_left (ml - cur) (doc_text d).length
        omega
      · rw [if_neg h2]
        simp only [List.map_nil, List.sum_nil]
        omega
    · rw [if_neg h1]
      push_neg at h1
      have h5 := ih (cur + (doc_text d).length) h1
      simp only [List.map_cons, List.sum_cons]
      omega

/-- Length of `sep.intercalate l`: the blocks plus one separator between
each adjacent pair. -/
theorem length_intercalate_sep (sep : Str) :
    ∀ (l : List Str), (List.intercalate sep l).length =
      (l.map List.length).sum + sep.length * (l.length - 1) := by
  intro l
  induction l with
  | nil => simp [List.intercalate]
  | cons x r ih =>
    cases r with
    | nil => simp [List.intercalate]
    | cons y r2 =>
      have hcc : List.intercalate sep (x :: y :: r2) =
          x ++ sep ++ List.intercalate sep (y :: r2) := by
        simp [List.intercalate, List.intersperse, List.flatten]
      rw [hcc]
      simp only [List.length_append, ih, List.map_cons, List.sum_cons, List.length_cons,
        Nat.add_sub_cancel]
      rw [Nat.mul_succ]
      omega

/-- C5 (amended): `buildContext` of an empty list is the empty string, and
the sum of the emitted block lengths (one truncation marker of length 3
included) never exceeds `maxLength + 3`; the `"\n\n"` separators, however,
are not counted against the budget, so the full output length is bounded
only by `maxLength + 3 + 2 * (number of blocks - 1)`. -/
theorem build_context_length_bounds :
    (∀ ml, build_context [] ml = []) ∧
    (∀ (docs : List DocumentRow) (ml : Nat),
      ((buildContextLoop docs 0 ml).map List.length).sum ≤ ml + 3 ∧
      (build_context docs ml).length ≤
        ml + 3 + 2 * ((buildContextLoop docs 0 ml).length - 1)) := by
  refine ⟨fun ml => rfl, fun docs ml => ⟨?_, ?_⟩⟩
  · have := buildContextLoop_sum ml docs 0 (Nat.zero_le _)
    omega
  · unfold build_context
    by_cases hd : docs.isEmpty
    · rw [if_pos hd]; simp
    · rw [if_neg hd]
      rw [length_intercalate_sep, show ("\n\n".data : Str).length = 2 from rfl]
      have h1 := buildContextLoop_sum ml docs 0 (Nat.zero_le _)
      omega

/-- C5 counterexample: three 16-character blocks fit a budget of 48
exactly, but the two blank-line separators push the joined output to 52
characters, exceeding `maxLength + len("...") = 51`. -/
theorem build_context_exceeds_budget_counterexample :
    ¬ ((build_context [cDoc, cDoc, cDoc] 48).length ≤ 48 + ("...".data).length) := by
  decide

/-- `rfind` returns an index strictly below the length (or `-1`). -/
theorem rfind_lt_length (c : Char) : ∀ s : Str, rfind c s < (s.length : Int) := by
  intro s
  induction s with
  | nil => simp [rfind]
  | cons a s ih =>
    rw [rfind]
    by_cases h : rfind c s ≥ 0
    · rw [if_pos h]
      simp only [List.length_cons]
      push_cast
      omega
    · rw [if_neg h]
      by_cases ha : a = c
      · rw [if_pos ha]
        simp only [List.length_cons]
        push_cast
        omega
      · rw [if_neg ha]
        simp only [List.length_cons]
        push_cast
        omega

/-- Slices starting at `a` of length `k`: `s[a : a + k]`. -/
theorem pySlice_add (s : Str) (a k : Nat) : pySlice s a (a + k) = (s.drop a).take k := by
  unfold pySlice
  rw [Nat.add_sub_cancel_left]

/-- The window end chosen by `chunkCut` advances the next start
(`end - overlap`) strictly past the current start whenever
`2 * overlap < chunk_size`: a raw boundary advances by
`chunk_size - overlap`, and a sentence-boundary cut is only taken past the
window midpoint, which exceeds `overlap`. -/
theorem chunkCut_fst_lt (content : Str) (cs ov start : Nat) (hov : 2 * ov < cs) :
    start + ov < (chunkCut content cs start).1 := by
  unfold chunkCut
  dsimp only
  split_ifs with h1 h2
  · have hpos : (0 : Int) ≤ max (rfind '.' (pySlice content start (start + cs)))
        (rfind '\n' (pySlice content start (start + cs))) := by
      omega
    omega
  · omega
  · omega

/-- The chunk emitted by `chunkCut` is exactly the slice of the content
over the window it reports. -/
theorem chunkCut_snd (content : Str) (cs start : Nat) :
    (chunkCut content cs start).2 = pySlice content start (chunkCut content cs start).1 := by
  unfold chunkCut
  dsimp only
  split_ifs with h1 h2
  · dsimp only
    simp only [pySlice_add] at h2 ⊢
    have hlt : max (rfind '.' ((content.drop start).take cs))
        (rfind '\n' ((content.drop start).take cs)) <
        (((content.drop start).take cs).length : Int) :=
      max_lt (rfind_lt_length _ _) (rfind_lt_length _ _)
    have hlen : ((content.drop start).take cs).length ≤ cs := by
      rw [List.length_take]
      exact Nat.min_le_left _ _
    rw [Nat.add_assoc, pySlice_add, List.take_take]
    congr 1
    omega
  · rfl
  · rfl

/-- Fuel `content.length - start` suffices for the chunking loop whenever
`2 * overlap < chunk_size`, and the windows it produces chain with stride
`end - overlap`, strictly advance, emit the stripped slice of their
window, and jointly cover the content with no gaps. -/
theorem chunkLoop_spec (content : Str) (cs ov : Nat) (hov : 2 * ov < cs) :
    ∀ (fuel start : Nat), content.length ≤ start + fuel →
      ∃ ws, chunkLoop content cs ov fuel start = some ws ∧
        windowChain ov start ws ∧
        (∀ t ∈ ws, t.2.2 = pyStrip (pySlice content t.1 t.2.1) ∧ t.1 + ov < t.2.1) ∧
        (∀ i, start ≤ i → i < content.length → ∃ t ∈ ws, t.1 ≤ i ∧ i < t.2.1) := by
  intro fuel
  induction fuel with
  | zero =>
    intro start h
    refine ⟨[], ?_, trivial, by simp, fun i hi hilen => absurd hilen (by omega)⟩
    rw [chunkLoop, if_neg (by omega)]
  | succ fuel ih =>
    intro start h
    by_cases hs : start < content.length
    · have hprog := chunkCut_fst_lt content cs ov start hov
      obtain ⟨rest, hrest, hchain, hprops, hcov⟩ :=
        ih ((chunkCut content cs start).1 - ov) (by omega)
      refine ⟨(start, (chunkCut content cs start).1,
          pyStrip (chunkCut content cs start).2) :: rest, ?_, ⟨rfl, hchain⟩, ?_, ?_⟩
      · rw [chunkLoop, if_pos hs]
        dsimp only
        rw [hrest]
      · intro t ht
        rcases List.mem_cons.mp ht with h1 | h2
        · subst h1
          exact ⟨by dsimp only; rw [chunkCut_snd], by dsimp only; omega⟩
        · exact hprops t h2
      · intro i hi hilen
        by_cases hie : i < (chunkCut content cs start).1
        · exact ⟨_, List.mem_cons_self _ _, hi, hie⟩
        · obtain ⟨t, ht, ha, hb2⟩ := hcov i (by omega) hilen
          exact ⟨t, List.mem_cons_of_mem _ ht, ha, hb2⟩
    · refine ⟨[], ?_, trivial, by simp, fun i hi hilen => absurd hilen (by omega)⟩
      rw [chunkLoop, if_neg hs]

/-- C6 (amended): content no longer than `chunkSize` comes back as one
chunk equal to the content as-is (the source does NOT trim it); for longer
content (with `overlap` below half of `chunkSize`, as in the spec's
1000/200), the loop produces windows in which every window after the first
starts at `previousEnd - overlap`, each emitted chunk is the
whitespace-stripped slice of its window, and the windows — before
stripping — cover the original content with no gaps. -/
theorem chunk_content_windows :
    (∀ (content : Str) (cs ov : Nat), content.length ≤ cs →
        chunk_content content cs ov = some [content]) ∧
    (∀ (content : Str) (cs ov : Nat), 2 * ov < cs → cs < content.length →
        ∃ ws, chunkLoop content cs ov (content.length + 1) 0 = some ws ∧
          chunk_content content cs ov = some (ws.map (fun t => t.2.2)) ∧
          windowChain ov 0 ws ∧
          (∀ t ∈ ws, t.2.2 = pyStrip (pySlice content t.1 t.2.1) ∧ t.1 + ov < t.2.1) ∧
          (∀ i, i < content.length → ∃ t ∈ ws, t.1 ≤ i ∧ i < t.2.1)) := by
  constructor
  · intro content cs ov h
    unfold chunk_content
    rw [if_pos h]
  · intro content cs ov hov hlen
    obtain ⟨ws, hws, hchain, hprops, hcov⟩ :=
      chunkLoop_spec content cs ov hov (content.length + 1) 0 (by omega)
    refine ⟨ws, hws, ?_, hchain, hprops, fun i hi => hcov i (Nat.zero_le _) hi⟩
    unfold chunk_content
    rw [if_neg (by omega), hws]
    rfl

/-- C6 counterexample: content of length 3 (at most the chunk size) is
returned as the single chunk `" a "` unchanged, not as the trimmed `"a"`
the claim requires. -/
theorem chunk_content_untrimmed_counterexample :
    chunk_content (" a ".data) 1000 200 = some [(" a ".data)] ∧
    pyStrip (" a ".data) = ("a".data) ∧ ¬ (" a ".data : Str) = ("a".data) := by
  exact ⟨by decide, by decide, by decide⟩

/-- Witness for C6: the long-content conjunct at `chunk("aaaaaaa", 3, 1)`. -/
theorem chunk_content_windows_witness :
    2 * 1 < 3 ∧ 3 < ("aaaaaaa".data : Str).length ∧
    (∃ ws, chunkLoop ("aaaaaaa".data) 3 1 (("aaaaaaa".data : Str).length + 1) 0 = some ws ∧
      chunk_content ("aaaaaaa".data) 3 1 = some (ws.map (fun t => t.2.2)) ∧
      windowChain 1 0 ws ∧
      (∀ t ∈ ws, t.2.2 = pyStrip (pySlice ("aaaaaaa".data) t.1 t.2.1) ∧ t.1 + 1 < t.2.1) ∧
      (∀ i, i < ("aaaaaaa".data : Str).length → ∃ t ∈ ws, t.1 ≤ i ∧ i < t.2.1)) :=
  ⟨by decide, by decide, chunk_content_windows.2 ("aaaaaaa".data) 3 1 (by decide) (by decide)⟩

/-- C7: the chunking loop terminates (fuel `content.length + 1` suffices,
so the model returns `some`) for every content whenever
`2 * overlap < chunk_size`, including content with no sentence terminator
or newline in any window: the fallback raw boundary still advances the
window start strictly. -/
theorem chunk_content_terminates (content : Str) (cs ov : Nat) (hov : 2 * ov < cs) :
    (chunk_content content cs ov).isSome = true := by
  unfold chunk_content
  by_cases h : content.length ≤ cs
  · rw [if_pos h]
    rfl
  · rw [if_neg h]
    obtain ⟨ws, hws, -, -, -⟩ :=
      chunkLoop_spec content cs ov hov (content.length + 1) 0 (by omega)
    rw [hws]
    rfl

/-- Witness for C7: `chunk("aaaaaaa", 3, 1)` — a content without any break
point — terminates. -/
theorem chunk_content_terminates_witness :
    2 * 1 < 3 ∧ (chunk_content ("aaaaaaa".data) 3 1).isSome = true :=
  ⟨by decide, chunk_content_terminates ("aaaaaaa".data) 3 1 (by decide)⟩
